import Mathlib

/-!
Shallow embedding of the `SomGraph` class from `src/som.h` (RELION's
growing-neural-gas style topology graph), together with theorems settling
the specification claims about it.

Modelling conventions:
* `_nodes` (a `std::unordered_map<unsigned, Node>`) is modelled as an
  insertion-ordered association list `List (Nat × Rat)` from node id to the
  node's `error` field.  Iteration over the map is modelled as iteration in
  insertion order, which is the deterministic order the specification
  stipulates for `find_winner`.
* `_edges` (a `std::vector<Edge>`) is modelled as a `List Edge` in the same
  order; the C++ index-based loops over the vector (including the ones that
  call `erase` while iterating) are modelled by index-based recursion that
  mirrors the source loop exactly, `erase(begin()+i)` becoming
  `List.eraseIdx i` followed by the loop's `i + 1` increment.
* `float` fields (`age`, `error`) are modelled as `Rat`; every claim only
  involves small integral values and exact comparisons, where IEEE `float`
  arithmetic coincides with exact rational arithmetic.
* `unsigned` node ids are modelled as `Nat`; the single place where wrap-around
  is observable (returning the `int` sentinel `-1` from `find_wpu` through the
  `unsigned` return type) takes the reduction modulo `2^32` explicitly.
* C++ exceptions are modelled with `Except` / an `Option` error component;
  the distinct `std::runtime_error` messages are mapped to the error taxonomy
  of the specification (`notFound`, `invalidArgument`, `resourceExhausted`).
-/

deriving instance DecidableEq for Except

namespace Som

/-- Error taxonomy of the specification (§7). -/
inductive SomError where
  | notFound
  | invalidArgument
  | resourceExhausted
  deriving DecidableEq

/-- `SomGraph::Edge`: `float age = 0.; unsigned n1, n2;`. -/
structure Edge where
  age : Rat
  n1 : Nat
  n2 : Nat
  deriving DecidableEq, Inhabited

/-- The state of a `SomGraph`: `_nodes` as an insertion-ordered association
list from id to the node's `error`, and `_edges` as the vector of edges. -/
structure SomGraph where
  nodes : List (Nat × Rat)
  edges : List Edge
  deriving DecidableEq

/-- The empty graph (a default-constructed `SomGraph`). -/
def gEmpty : SomGraph := { nodes := [], edges := [] }

/-- The test `_edges[i].n1 == node || _edges[i].n2 == node`. -/
def incident (node : Nat) (e : Edge) : Bool :=
  e.n1 == node || e.n2 == node

/-- The test `_edges[i].n1 == node1 && _edges[i].n2 == node2 ||
_edges[i].n1 == node2 && _edges[i].n2 == node1` used by `add_edge`,
`remove_edge`, `get_edge_age` and `set_edge_age`. -/
def edgeMatch (e : Edge) (node1 node2 : Nat) : Bool :=
  (e.n1 == node1 && e.n2 == node2) || (e.n1 == node2 && e.n2 == node1)

/-- The conditional-erase loop pattern shared by `_remove_node` and
`purge_old_edges`:
`for (unsigned i = 0; i < _edges.size(); i++)
   if (p(_edges[i])) _edges.erase(_edges.begin()+i);`
Note that after an `erase` the loop still increments `i`, exactly as in the
source, so the element that slides into position `i` is never examined. -/
def eraseWhereIdx (p : Edge → Bool) (edges : List Edge) (i : Nat) : List Edge :=
  if h : i < edges.length then
    if p (edges.get ⟨i, h⟩) then
      eraseWhereIdx p (edges.eraseIdx i) (i + 1)
    else
      eraseWhereIdx p edges (i + 1)
  else
    edges
termination_by edges.length - i
decreasing_by
  · simp [List.length_eraseIdx, h]
    omega
  · omega

/-- Structural form of the same loop: an element satisfying `p` is erased and
the element right after it is kept without being examined (it slid into the
erased slot and the loop moved past it).  `eraseWhereIdx_eq` proves this is
exactly `eraseWhereIdx` started at `i = 0`; the operations below use this
form. -/
def eraseWhere (p : Edge → Bool) : List Edge → List Edge
  | [] => []
  | [e] => if p e then [] else [e]
  | e :: e2 :: rest =>
    if p e then
      e2 :: eraseWhere p rest
    else
      e :: eraseWhere p (e2 :: rest)

/-- A kept (non-matching) head commutes with `eraseWhere`. -/
lemma eraseWhere_cons_neg (p : Edge → Bool) (e : Edge) (rest : List Edge)
    (hp : ¬p e = true) : eraseWhere p (e :: rest) = e :: eraseWhere p rest := by
  cases rest <;> simp [eraseWhere, hp]

/-- An erased head also drops the element sliding into its slot from the
examination, keeping it verbatim. -/
lemma eraseWhere_cons_pos (p : Edge → Bool) (e e2 : Edge) (rest : List Edge)
    (hp : p e = true) :
    eraseWhere p (e :: e2 :: rest) = e2 :: eraseWhere p rest := by
  simp [eraseWhere, hp]

/-- An erased head at the end of the vector. -/
lemma eraseWhere_singleton_pos (p : Edge → Bool) (e : Edge) (hp : p e = true) :
    eraseWhere p [e] = [] := by
  simp [eraseWhere, hp]

/-- `List.get` at the junction of an append. -/
lemma get_append_cons {α : Type} : ∀ (pre : List α) (e : α) (rest : List α)
    (h : pre.length < (pre ++ e :: rest).length),
    (pre ++ e :: rest).get ⟨pre.length, h⟩ = e
  | [], _, _, _ => rfl
  | _ :: pre, e, rest, _ => get_append_cons pre e rest (by simp)

/-- `List.eraseIdx` at the junction of an append. -/
lemma eraseIdx_append_cons : ∀ (pre : List Edge) (e : Edge) (rest : List Edge),
    (pre ++ e :: rest).eraseIdx pre.length = pre ++ rest
  | [], _, _ => rfl
  | a :: pre, e, rest => congrArg (a :: ·) (eraseIdx_append_cons pre e rest)

/-- The index-based erase loop, started at the end of an untouched prefix,
acts on the rest as `eraseWhere`. -/
lemma eraseWhereIdx_append (p : Edge → Bool) (edges pre : List Edge) :
    eraseWhereIdx p (pre ++ edges) pre.length = pre ++ eraseWhere p edges :=
  match edges with
  | [] => by
    rw [eraseWhereIdx]
    simp [eraseWhere]
  | e :: rest => by
    rw [eraseWhereIdx]
    have hlen : pre.length < (pre ++ e :: rest).length := by simp
    rw [dif_pos hlen, get_append_cons pre e rest hlen]
    by_cases hp : p e
    · rw [if_pos hp, eraseIdx_append_cons]
      match rest with
      | [] =>
        rw [eraseWhereIdx]
        simp [eraseWhere_singleton_pos p e hp]
      | e2 :: rest2 =>
        have h1 : pre ++ e2 :: rest2 = (pre ++ [e2]) ++ rest2 := by simp
        have h2 : pre.length + 1 = (pre ++ [e2]).length := by simp
        rw [h1, h2, eraseWhereIdx_append p rest2 (pre ++ [e2]),
          eraseWhere_cons_pos p e e2 rest2 hp]
        simp
    · rw [if_neg hp]
      have h1 : pre ++ e :: rest = (pre ++ [e]) ++ rest := by simp
      have h2 : pre.length + 1 = (pre ++ [e]).length := by simp
      rw [h1, h2, eraseWhereIdx_append p rest (pre ++ [e]),
        eraseWhere_cons_neg p e rest hp]
      simp
termination_by edges.length

/-- The faithful index translation of the C++ loop coincides with the
structural form used by the operations. -/
lemma eraseWhereIdx_eq (p : Edge → Bool) (edges : List Edge) :
    eraseWhereIdx p edges 0 = eraseWhere p edges :=
  eraseWhereIdx_append p edges []

/-- `SomGraph::_remove_node`: throws if the node is missing, otherwise runs
the incident-edge erase loop and erases the node from `_nodes`. -/
def _remove_node (g : SomGraph) (node : Nat) : Except SomError SomGraph :=
  if (g.nodes.lookup node).isNone then
    .error .notFound
  else
    .ok { nodes := g.nodes.filter (fun p => !(p.1 == node)),
          edges := eraseWhere (incident node) g.edges }

/-- `SomGraph::remove_node` (public wrapper; the lock is not modelled). -/
def remove_node (g : SomGraph) (node : Nat) : Except SomError SomGraph :=
  _remove_node g node

/-- The id-search loop of `SomGraph::add_node`:
`for (unsigned i = 0; i < _nodes.size() + 1; i++)
   if (_nodes.find(i) == _nodes.end()) { ... return i; }`
i.e. the first `i` in `0 .. _nodes.size()` (inclusive) that is not a key. -/
def freeId (nodes : List (Nat × Rat)) : Option Nat :=
  (List.range (nodes.length + 1)).find? (fun i => (nodes.lookup i).isNone)

/-- `SomGraph::add_node`: insert the first free id with a default node
(`error = 0`), returning the id; throws `resourceExhausted` ("failed to add
node") if the loop finds no free id. -/
def add_node (g : SomGraph) : Except SomError (Nat × SomGraph) :=
  match freeId g.nodes with
  | some i => .ok (i, { g with nodes := g.nodes ++ [(i, 0)] })
  | none => .error .resourceExhausted

/-- `SomGraph::add_edge`.  The result pairs the state of the graph when the
call returns or throws with the error thrown (if any); both throwing checks
precede any mutation in the source, so the state component is the input graph
on every error path. -/
def add_edge (g : SomGraph) (node1 node2 : Nat) : SomGraph × Option SomError :=
  if node1 = node2 then
    (g, some .invalidArgument)
  else if (g.nodes.lookup node1).isNone || (g.nodes.lookup node2).isNone then
    (g, some .notFound)
  else if g.edges.any (fun e => edgeMatch e node1 node2) then
    (g, none)
  else
    ({ g with edges := g.edges ++ [⟨0, node1, node2⟩] }, none)

/-- `SomGraph::remove_edge`: erase the first matching edge and return;
throw `notFound` ("edge not found") if none matches. -/
def remove_edge (g : SomGraph) (node1 node2 : Nat) : Except SomError SomGraph :=
  match g.edges.findIdx? (fun e => edgeMatch e node1 node2) with
  | some i => .ok { g with edges := g.edges.eraseIdx i }
  | none => .error .notFound

/-- `SomGraph::get_neighbours`: for each edge, append `n2` if `n1` matches,
then append `n1` if `n2` matches. -/
def get_neighbours (g : SomGraph) (node : Nat) : List Nat :=
  g.edges.foldl (fun acc e =>
    let acc1 := if e.n1 == node then acc ++ [e.n2] else acc
    if e.n2 == node then acc1 ++ [e.n1] else acc1) []

/-- `SomGraph::purge_old_edges`:
`for (unsigned i = 0; i < _edges.size(); i++)
   if (_edges[i].age > max_age) _edges.erase(_edges.begin()+i);`
the same skipping erase loop, with the age test as predicate. -/
def purge_old_edges (g : SomGraph) (max_age : Rat) : SomGraph :=
  { g with edges := eraseWhere (fun e => decide (max_age < e.age)) g.edges }

/-- `SomGraph::purge_orphans`: collect (in `_nodes` iteration order) the
nodes with no incident edge, then `_remove_node` each of them, returning the
collected list. -/
def purge_orphans (g : SomGraph) : Except SomError (List Nat × SomGraph) := do
  let orphans :=
    (g.nodes.filter (fun p => !(g.edges.any (fun e => incident p.1 e)))).map Prod.fst
  let g2 ← orphans.foldlM (fun acc id => _remove_node acc id) g
  return (orphans, g2)

/-- `SomGraph::get_edge_age`: the age of the first matching edge; throws
`notFound` if no edge matches. -/
def get_edge_age (g : SomGraph) (node1 node2 : Nat) : Except SomError Rat :=
  match g.edges.find? (fun e => edgeMatch e node1 node2) with
  | some e => .ok e.age
  | none => .error .notFound

/-- `SomGraph::set_edge_age`: set the age of the first matching edge and
return; throws `notFound` if no edge matches. -/
def set_edge_age (g : SomGraph) (node1 node2 : Nat) (age : Rat) :
    Except SomError SomGraph :=
  match g.edges.findIdx? (fun e => edgeMatch e node1 node2) with
  | some i => .ok { g with edges := g.edges.set i { g.edges.get! i with age := age } }
  | none => .error .notFound

/-- `SomGraph::get_node_error`: `return _nodes[node].error;`.  `operator[]`
on `std::unordered_map` default-inserts a missing key, so on an unknown id a
fresh node with `error = 0` is created and `0` is returned; the graph after
the call is the second component. -/
def get_node_error (g : SomGraph) (node : Nat) : Rat × SomGraph :=
  match g.nodes.lookup node with
  | some e => (e, g)
  | none => (0, { g with nodes := g.nodes ++ [(node, 0)] })

/-- `SomGraph::set_node_error`: `_nodes[node].error = error;`, again with the
default-inserting `operator[]`: an unknown id gets a fresh node whose error is
then set. -/
def set_node_error (g : SomGraph) (node : Nat) (error : Rat) : SomGraph :=
  if (g.nodes.lookup node).isSome then
    { g with nodes := g.nodes.map (fun p => if p.1 == node then (p.1, error) else p) }
  else
    { g with nodes := g.nodes ++ [(node, error)] }

/-- `SomGraph::increment_age`: `_edges[i].age ++` for every edge. -/
def increment_age (g : SomGraph) : SomGraph :=
  { g with edges := g.edges.map (fun e => { e with age := e.age + 1 }) }

/-- `SomGraph::get_node_count`. -/
def get_node_count (g : SomGraph) : Nat :=
  g.nodes.length

/-- `SomGraph::get_edge_count`. -/
def get_edge_count (g : SomGraph) : Nat :=
  g.edges.length

/-- `SomGraph::reset_errors`. -/
def reset_errors (g : SomGraph) : SomGraph :=
  { g with nodes := g.nodes.map (fun p => (p.1, (0 : Rat))) }

/-- `SomGraph::find_wpu`: fold over the nodes with accumulator
`(wpu : int, min_e)` starting from `(-1, 0)`; a node replaces the accumulator
when `(0 <= e && e < min_e) || wpu == -1`.  The final `return wpu;` converts
the `int` back to the `unsigned` return type, i.e. reduces modulo `2^32`. -/
def find_wpu (g : SomGraph) : Nat :=
  let r := g.nodes.foldl
    (fun (acc : Int × Rat) p =>
      if (0 ≤ p.2 ∧ p.2 < acc.2) ∨ acc.1 = -1 then ((p.1 : Int), p.2) else acc)
    ((-1 : Int), (0 : Rat))
  (r.1 % (2 : Int) ^ 32).toNat

/-- Run `add_edge` in the `Except` monad: the mutated graph on success, the
thrown error otherwise (plumbing between the two error models). -/
def add_edgeE (g : SomGraph) (node1 node2 : Nat) : Except SomError SomGraph :=
  match add_edge g node1 node2 with
  | (g2, none) => .ok g2
  | (_, some e) => .error e

/-- Nodes 0, 1, 2 created in an empty graph. -/
def g012 : Except SomError SomGraph := do
  let (_, g) ← add_node gEmpty
  let (_, g) ← add_node g
  let (_, g) ← add_node g
  return g

/-- Nodes 0, 1, 2 with edges (0,1) and (0,2): two edges incident to node 0,
adjacent in the edge vector. -/
def gStar : Except SomError SomGraph := do
  let g ← g012
  let g ← add_edgeE g 0 1
  add_edgeE g 0 2

/-- Nodes 0, 1, 2 with edges (0,1) and (1,2): the end-to-end scenario state
before any `increment_age`. -/
def gEdges : Except SomError SomGraph := do
  let g ← g012
  let g ← add_edgeE g 0 1
  add_edgeE g 1 2

/-- The end-to-end scenario state after three `increment_age` calls (both
edges at age 3). -/
def gTicked : Except SomError SomGraph := do
  let g ← gEdges
  return increment_age (increment_age (increment_age g))

/-- Evaluation of the three `add_node` calls. -/
lemma g012_eval : g012 = .ok ⟨[(0, 0), (1, 0), (2, 0)], []⟩ := by decide

/-- Evaluation of the star-shaped state. -/
lemma gStar_eval :
    gStar = .ok ⟨[(0, 0), (1, 0), (2, 0)], [⟨0, 0, 1⟩, ⟨0, 0, 2⟩]⟩ := by decide

/-- Evaluation of the path-shaped state. -/
lemma gEdges_eval :
    gEdges = .ok ⟨[(0, 0), (1, 0), (2, 0)], [⟨0, 0, 1⟩, ⟨0, 1, 2⟩]⟩ := by decide

/-- Evaluation of the ticked state: both edges have age 3. -/
lemma gTicked_eval :
    gTicked = .ok ⟨[(0, 0), (1, 0), (2, 0)], [⟨3, 0, 1⟩, ⟨3, 1, 2⟩]⟩ := by
  rw [gTicked, gEdges_eval]
  norm_num [increment_age, Bind.bind, Except.bind, pure, Except.pure]

/-- The graph with node errors {5 ↦ 3, 6 ↦ -1, 7 ↦ 1} in insertion order
5, 6, 7 (built through the upserting `set_node_error`). -/
def gErrors : SomGraph :=
  set_node_error (set_node_error (set_node_error gEmpty 5 3) 6 (-1)) 7 1

/-- Observables of the end-to-end scenario: the edge count after
`purge_old_edges(2)` on the ticked state, the list returned by
`purge_orphans`, and the node count afterwards. -/
def scenarioEndToEnd : Except SomError (Nat × List Nat × Nat) := do
  let g ← gTicked
  let g := purge_old_edges g 2
  let (orphans, g2) ← purge_orphans g
  return (get_edge_count g, orphans, get_node_count g2)

/-- C1: `remove_node` is claimed to remove every edge incident to the removed
node, preserving the invariant that every edge references two live node ids.
The code erases inside an index-incrementing loop, so the element after each
erased one is skipped: in the reachable state with nodes 0, 1, 2 and adjacent
incident edges (0,1), (0,2), `remove_node 0` erases (0,1) but leaves (0,2),
an edge referencing the dead node 0. -/
theorem c1_remove_node_leaves_dangling_edge :
    gStar = .ok ⟨[(0, 0), (1, 0), (2, 0)], [⟨0, 0, 1⟩, ⟨0, 0, 2⟩]⟩ ∧
    remove_node ⟨[(0, 0), (1, 0), (2, 0)], [⟨0, 0, 1⟩, ⟨0, 0, 2⟩]⟩ 0 =
      .ok ⟨[(1, 0), (2, 0)], [⟨0, 0, 2⟩]⟩ ∧
    incident 0 ⟨0, 0, 2⟩ = true ∧
    (SomGraph.mk [(1, 0), (2, 0)] [⟨0, 0, 2⟩]).nodes.lookup 0 = none := by
  exact ⟨gStar_eval, by decide, by decide, by decide⟩

/-- C2: `purge_old_edges max_age` is claimed to remove every edge with age
strictly greater than `max_age`.  Same skipping loop: in the reachable ticked
state both edges have age 3 > 2, yet `purge_old_edges 2` erases only the
first and retains the second (age 3) edge. -/
theorem c2_purge_old_edges_skips_adjacent_edge :
    gTicked = .ok ⟨[(0, 0), (1, 0), (2, 0)], [⟨3, 0, 1⟩, ⟨3, 1, 2⟩]⟩ ∧
    purge_old_edges ⟨[(0, 0), (1, 0), (2, 0)], [⟨3, 0, 1⟩, ⟨3, 1, 2⟩]⟩ 2 =
      ⟨[(0, 0), (1, 0), (2, 0)], [⟨3, 1, 2⟩]⟩ ∧
    (2 : Rat) < 3 := by
  exact ⟨gTicked_eval, by decide, by norm_num⟩

/-- C3: the claimed end-to-end scenario.  On the code, `purge_old_edges 2`
leaves `edge_count = 1` (not 0) because of the skipping erase loop, the
subsequent `purge_orphans` returns only `[0]` (not {0,1,2}), and
`node_count = 2` (not 0) afterwards. -/
theorem c3_end_to_end_observables : scenarioEndToEnd = .ok (1, [0], 2) := by
  rw [scenarioEndToEnd, gTicked_eval]
  decide

/-- C4 counterexample: with errors {5 ↦ 3, 6 ↦ -1, 7 ↦ 1} visited in
insertion order 5, 6, 7, `find_wpu` does not return 6. -/
theorem c4_winner_is_not_six :
    gErrors.nodes = [(5, 3), (6, -1), (7, 1)] ∧ find_wpu gErrors ≠ 6 := by
  decide

/-- C4 amended: the winner is node 7: node 5 (error 3) is accepted first as
provisional winner, node 6 is skipped because its error -1 is negative, and
node 7 replaces node 5 because 0 ≤ 1 < 3. -/
theorem c4_winner_is_seven : find_wpu gErrors = 7 := by decide

/-- C5 counterexample: on the empty graph, `get_node_error 0` does not fail:
it returns 0 and creates node 0 (`operator[]` upsert), and `set_node_error`
on the unknown id 1 likewise creates the node. -/
theorem c5_accessors_upsert_counterexample :
    (get_node_error gEmpty 0).1 = 0 ∧
    (get_node_error gEmpty 0).2.nodes = [(0, 0)] ∧
    (set_node_error gEmpty 1 5).nodes = [(1, 5)] := by decide

/-- C5 amended: for an id that is not a live node, `get_node_error` returns 0
and appends a fresh default node for that id, and `set_node_error` appends a
fresh node carrying the given error; neither fails, and the node count grows
by one. -/
theorem c5_accessors_upsert (g : SomGraph) (id : Nat) (v : Rat)
    (h : g.nodes.lookup id = none) :
    get_node_error g id = (0, ⟨g.nodes ++ [(id, 0)], g.edges⟩) ∧
    set_node_error g id v = ⟨g.nodes ++ [(id, v)], g.edges⟩ ∧
    get_node_count (get_node_error g id).2 = get_node_count g + 1 := by
  unfold get_node_error set_node_error get_node_count
  rw [h]
  simp [h]

/-- Witness for `c5_accessors_upsert` at the empty graph, id 0, value 5. -/
theorem c5_accessors_upsert_witness :
    gEmpty.nodes.lookup 0 = none ∧
    get_node_error gEmpty 0 = (0, ⟨[(0, 0)], []⟩) ∧
    set_node_error gEmpty 0 5 = ⟨[(0, 5)], []⟩ ∧
    get_node_count (get_node_error gEmpty 0).2 = get_node_count gEmpty + 1 := by
  obtain ⟨h1, h2, h3⟩ := c5_accessors_upsert gEmpty 0 5 (by decide)
  exact ⟨by decide, h1, h2, h3⟩

/-- C10: on a graph with no nodes, `find_wpu` returns the `unsigned`
conversion of the `int` sentinel -1, i.e. 2^32 - 1 = 4294967295, rather than
raising an error. -/
theorem c10_find_wpu_empty_sentinel :
    get_node_count gEmpty = 0 ∧
    find_wpu gEmpty = 4294967295 ∧
    find_wpu gEmpty = ((-1 : Int) % (2 : Int) ^ 32).toNat := by decide

/-- What `find?` on `List.range n` returning `some i` means: `i` satisfies the
predicate, lies below `n`, and is least with that property. -/
lemma range_find?_spec {p : Nat → Bool} {n i : Nat}
    (h : (List.range n).find? p = some i) :
    p i = true ∧ i < n ∧ ∀ j < i, p j = false := by
  obtain ⟨hp, as, bs, hsplit, hbefore⟩ := List.find?_eq_some.mp h
  have hi_lt : i < n := List.mem_range.mp (List.mem_of_find?_eq_some h)
  have hlen : as.length < n := by
    have h1 : n = as.length + (i :: bs).length := by
      rw [← List.length_range n, hsplit, List.length_append]
    simp at h1
    omega
  have hidx : i = as.length := by
    have h1 : (List.range n)[as.length]? = some as.length :=
      List.getElem?_range hlen
    have h2 : (List.range n)[as.length]? = some i := by
      rw [hsplit, List.getElem?_append_right (Nat.le_refl as.length)]
      simp
    rw [h1] at h2
    exact (Option.some.inj h2).symm
  refine ⟨hp, hi_lt, fun j hj => ?_⟩
  have hj_as : j < as.length := by omega
  have hmem : j ∈ as := by
    have h5 : (List.range n)[j]? = some j := List.getElem?_range (by omega)
    rw [hsplit, List.getElem?_append_left hj_as] at h5
    exact List.getElem?_mem h5
  have := hbefore j hmem
  simpa using this

/-- `freeId` characterised: when it answers `some i`, the id `i` is at most
the node count, unassigned, and every smaller id is assigned. -/
lemma freeId_spec {nodes : List (Nat × Rat)} {i : Nat}
    (h : freeId nodes = some i) :
    nodes.lookup i = none ∧ i ≤ nodes.length ∧
      ∀ j < i, (nodes.lookup j).isSome := by
  obtain ⟨hp, hlt, hleast⟩ := range_find?_spec h
  refine ⟨Option.isNone_iff_eq_none.mp hp, by omega, fun j hj => ?_⟩
  have := hleast j hj
  rcases ho : nodes.lookup j with _ | v
  · rw [ho] at this
    simp at this
  · rfl

/-- Pigeonhole: a map with `n` entries cannot occupy all of the `n + 1` ids
`0 .. n`, so the id-search loop of `add_node` always finds a free id. -/
lemma freeId_isSome (nodes : List (Nat × Rat)) : (freeId nodes).isSome := by
  rw [freeId]
  cases hf : (List.range (nodes.length + 1)).find? (fun i => (nodes.lookup i).isNone) with
  | some i => rfl
  | none =>
    exfalso
    have hall := List.find?_eq_none.mp hf
    have hsub : ∀ j ∈ List.range (nodes.length + 1), j ∈ nodes.map Prod.fst := by
      intro j hj
      have hnone := hall j hj
      simp only [Option.isNone_iff_eq_none] at hnone
      rcases ho : nodes.lookup j with _ | v
      · exact absurd ho hnone
      · obtain ⟨q, hq, hqeq⟩ := List.lookup_isSome_iff.mp (by rw [ho]; rfl)
        rw [beq_iff_eq] at hqeq
        exact List.mem_map.mpr ⟨q, hq, hqeq.symm⟩
    have hfsub : (List.range (nodes.length + 1)).toFinset ⊆
        (nodes.map Prod.fst).toFinset := by
      intro x hx
      rw [List.mem_toFinset] at hx ⊢
      exact hsub x hx
    have hc1 : (List.range (nodes.length + 1)).toFinset.card = nodes.length + 1 := by
      rw [List.toFinset_card_of_nodup (List.nodup_range _), List.length_range]
    have hc2 : (nodes.map Prod.fst).toFinset.card ≤ nodes.length := by
      have h4 := List.toFinset_card_le (l := nodes.map Prod.fst)
      rw [List.length_map] at h4
      exact h4
    have := Finset.card_le_card hfsub
    omega

/-- Inversion of a successful `add_node`. -/
lemma add_node_ok {g : SomGraph} {i : Nat} {g1 : SomGraph}
    (h : add_node g = .ok (i, g1)) :
    freeId g.nodes = some i ∧ g1 = ⟨g.nodes ++ [(i, 0)], g.edges⟩ := by
  rw [add_node] at h
  cases hf : freeId g.nodes with
  | none =>
    rw [hf] at h
    exact absurd h (by simp)
  | some i2 =>
    rw [hf] at h
    simp only [Except.ok.injEq, Prod.mk.injEq] at h
    obtain ⟨rfl, rfl⟩ := h
    exact ⟨rfl, rfl⟩

/-- C9: `create_node` never fails: for every graph state (pigeonhole over the
ids `0 .. node_count`) some id at most `node_count` is unassigned, the search
loop finds one, and the `ResourceExhausted` branch is unreachable. -/
theorem c9_create_node_never_fails (g : SomGraph) :
    ∃ i g2, i ≤ get_node_count g ∧ g.nodes.lookup i = none ∧
      add_node g = .ok (i, g2) := by
  obtain ⟨i, hf⟩ := Option.isSome_iff_exists.mp (freeId_isSome g.nodes)
  obtain ⟨hnone, hle, _⟩ := freeId_spec hf
  refine ⟨i, ⟨g.nodes ++ [(i, 0)], g.edges⟩, hle, hnone, ?_⟩
  rw [add_node, hf]

/-- C6: `create_node` returns the smallest id not assigned to a live node,
and after `create_node` yields `i` and `remove_node i` succeeds, the next
`create_node` returns `i` again. -/
theorem c6_smallest_unused_id :
    (∀ (g : SomGraph) (i : Nat) (g1 : SomGraph), add_node g = .ok (i, g1) →
      g.nodes.lookup i = none ∧ ∀ j < i, (g.nodes.lookup j).isSome) ∧
    (∀ (g : SomGraph) (i : Nat) (g1 g2 : SomGraph), add_node g = .ok (i, g1) →
      remove_node g1 i = .ok g2 → ∃ g3, add_node g2 = .ok (i, g3)) := by
  constructor
  · intro g i g1 h
    obtain ⟨hf, _⟩ := add_node_ok h
    obtain ⟨hnone, _, hsmall⟩ := freeId_spec hf
    exact ⟨hnone, hsmall⟩
  · intro g i g1 g2 h1 h2
    obtain ⟨hf, rfl⟩ := add_node_ok h1
    obtain ⟨hnone, _, _⟩ := freeId_spec hf
    rw [remove_node, _remove_node] at h2
    have hlook : (g.nodes ++ [(i, 0)]).lookup i = some 0 := by
      rw [List.lookup_append, hnone]
      simp
    rw [hlook] at h2
    simp only [Option.isNone_some, Bool.false_eq_true, if_false,
      Except.ok.injEq] at h2
    have hfilter : (g.nodes ++ [(i, 0)]).filter (fun p => !(p.1 == i)) = g.nodes := by
      rw [List.filter_append]
      have h1 : g.nodes.filter (fun p => !(p.1 == i)) = g.nodes := by
        apply List.filter_eq_self.mpr
        intro p hp
        have h3 : ¬i = p.1 := by
          simpa using List.lookup_eq_none_iff.mp hnone p hp
        simp only [Bool.not_eq_true', beq_eq_false_iff_ne]
        omega
      have h2 : [((i : Nat), (0 : Rat))].filter (fun p => !(p.1 == i)) = [] := by
        simp
      rw [h1, h2, List.append_nil]
    have hnodes : g2.nodes = g.nodes := by
      rw [← h2, hfilter]
    refine ⟨⟨g2.nodes ++ [(i, 0)], g2.edges⟩, ?_⟩
    simp only [add_node, hnodes, hf]

/-- Witness for `c6_smallest_unused_id`: on the empty graph, `add_node`
returns 0; after removing it, `add_node` returns 0 again. -/
theorem c6_smallest_unused_id_witness :
    (gEmpty.nodes.lookup 0 = none ∧ ∀ j < 0, (gEmpty.nodes.lookup j).isSome) ∧
    ∃ g3, add_node ⟨[], []⟩ = .ok (0, g3) := by
  have h1 : add_node gEmpty = .ok (0, ⟨[(0, 0)], []⟩) := by decide
  have h2 : remove_node ⟨[(0, 0)], []⟩ 0 = .ok ⟨[], []⟩ := by decide
  exact ⟨c6_smallest_unused_id.1 gEmpty 0 ⟨[(0, 0)], []⟩ h1,
    c6_smallest_unused_id.2 gEmpty 0 ⟨[(0, 0)], []⟩ ⟨[], []⟩ h1 h2⟩

/-- C7: a failing `add_edge` leaves the graph (nodes, edges, ages, errors)
completely unchanged, failing with `invalidArgument` exactly when the edge is
a self-edge and with `notFound` exactly when (the ids differ and) an endpoint
is not live; both checks precede any mutation of the edge collection. -/
theorem c7_add_edge_failure_no_mutation (g : SomGraph) (a b : Nat)
    (err : SomError) (h : (add_edge g a b).2 = some err) :
    (add_edge g a b).1 = g ∧
    (a = b → err = .invalidArgument) ∧
    (a ≠ b → err = .notFound ∧
      (g.nodes.lookup a = none ∨ g.nodes.lookup b = none)) := by
  by_cases hab : a = b
  · simp only [add_edge, if_pos hab] at h ⊢
    refine ⟨trivial, fun _ => ?_, fun hne => absurd hab hne⟩
    exact (Option.some.inj h).symm
  · by_cases hm : ((g.nodes.lookup a).isNone || (g.nodes.lookup b).isNone) = true
    · simp only [add_edge, if_neg hab, if_pos hm] at h ⊢
      refine ⟨trivial, fun hab2 => absurd hab2 hab,
        fun _ => ⟨(Option.some.inj h).symm, ?_⟩⟩
      rcases Bool.or_eq_true_iff.mp hm with h1 | h2
      · exact Or.inl (Option.isNone_iff_eq_none.mp h1)
      · exact Or.inr (Option.isNone_iff_eq_none.mp h2)
    · exfalso
      by_cases hdup : g.edges.any (fun e => edgeMatch e a b) = true
      · simp only [add_edge, if_neg hab, if_neg hm, if_pos hdup] at h
        exact Option.noConfusion h
      · simp only [add_edge, if_neg hab, if_neg hm, if_neg hdup] at h
        exact Option.noConfusion h

/-- Witness for `c7_add_edge_failure_no_mutation`: on the empty graph,
`add_edge 0 1` fails with `notFound` and mutates nothing. -/
theorem c7_add_edge_failure_witness :
    (add_edge gEmpty 0 1).1 = gEmpty ∧
    ((0 : Nat) = 1 → SomError.notFound = SomError.invalidArgument) ∧
    ((0 : Nat) ≠ 1 → SomError.notFound = SomError.notFound ∧
      (gEmpty.nodes.lookup 0 = none ∨ gEmpty.nodes.lookup 1 = none)) :=
  c7_add_edge_failure_no_mutation gEmpty 0 1 .notFound (by decide)

/-- The unordered-pair edge test is symmetric in the two query ids. -/
lemma edgeMatch_comm (e : Edge) (a b : Nat) :
    edgeMatch e a b = edgeMatch e b a := by
  simp [edgeMatch, Bool.or_comm]

/-- C8: for live distinct `a`, `b` with no edge between them, `add_edge a b`
succeeds and grows `edge_count` by exactly 1, and repeating the call — in
either orientation — succeeds, adds nothing and leaves the graph unchanged. -/
theorem c8_add_edge_idempotent (g : SomGraph) (a b : Nat) (hab : a ≠ b)
    (ha : (g.nodes.lookup a).isSome = true)
    (hb : (g.nodes.lookup b).isSome = true)
    (habsent : g.edges.any (fun e => edgeMatch e a b) = false) :
    ∃ g1, add_edge g a b = (g1, none) ∧
      get_edge_count g1 = get_edge_count g + 1 ∧
      add_edge g1 a b = (g1, none) ∧
      add_edge g1 b a = (g1, none) := by
  have ha2 : (g.nodes.lookup a).isNone = false := by
    rcases hA : g.nodes.lookup a with _ | v
    · rw [hA] at ha
      exact absurd ha (by simp)
    · rfl
  have hb2 : (g.nodes.lookup b).isNone = false := by
    rcases hB : g.nodes.lookup b with _ | v
    · rw [hB] at hb
      exact absurd hb (by simp)
    · rfl
  have hba : b ≠ a := fun h2 => hab h2.symm
  refine ⟨⟨g.nodes, g.edges ++ [⟨0, a, b⟩]⟩, ?_, ?_, ?_, ?_⟩
  · simp [add_edge, hab, ha2, hb2, habsent]
  · simp [get_edge_count]
  · simp [add_edge, hab, ha2, hb2, List.any_append, edgeMatch]
  · simp [add_edge, hba, ha2, hb2, List.any_append, edgeMatch]

/-- Witness for `c8_add_edge_idempotent`: two live nodes 0, 1 with no edge. -/
theorem c8_add_edge_idempotent_witness :
    ∃ g1, add_edge ⟨[(0, 0), (1, 0)], []⟩ 0 1 = (g1, none) ∧
      get_edge_count g1 = get_edge_count ⟨[(0, 0), (1, 0)], []⟩ + 1 ∧
      add_edge g1 0 1 = (g1, none) ∧
      add_edge g1 1 0 = (g1, none) :=
  c8_add_edge_idempotent ⟨[(0, 0), (1, 0)], []⟩ 0 1 (by decide) (by decide)
    (by decide) (by decide)

end Som
